import Mathlib

/-!
Shallow embedding of the AntiHook backend core (`src-tauri/src/config.rs` and
`src-tauri/src/health.rs`): URL normalization, atomic persistence of the
single-field configuration, and the two-candidate health probe.

External effects (filesystem, HTTP transport, JSON parsing of arbitrary
response bodies) are modelled as explicit state or oracle parameters; the
control flow of every embedded function mirrors the Rust source line by line.
-/

deriving instance DecidableEq for Except

namespace AntiHook

/-! ### String utilities mirroring the Rust `str` methods used by the source -/

/-- Characters with the Unicode `White_Space` property, as tested by Rust's
`char::is_whitespace` (used by `str::trim`). -/
def rustIsWhitespace (c : Char) : Bool :=
  c.val == 0x09 || c.val == 0x0A || c.val == 0x0B || c.val == 0x0C || c.val == 0x0D ||
  c.val == 0x20 || c.val == 0x85 || c.val == 0xA0 || c.val == 0x1680 ||
  (0x2000 ≤ c.val && c.val ≤ 0x200A) || c.val == 0x2028 || c.val == 0x2029 ||
  c.val == 0x202F || c.val == 0x205F || c.val == 0x3000

/-- Drop the longest suffix of `l` all of whose characters satisfy `p`. -/
def dropWhileEnd (p : Char → Bool) (l : List Char) : List Char :=
  (l.reverse.dropWhile p).reverse

/-- Rust `str::trim`: remove leading and trailing Unicode whitespace. -/
def rustTrim (s : String) : String :=
  ⟨dropWhileEnd rustIsWhitespace (s.data.dropWhile rustIsWhitespace)⟩

/-- Rust `str::trim_end_matches('/')`: remove every trailing `/`. -/
def trimEndSlashes (s : String) : String :=
  ⟨dropWhileEnd (fun c => c == '/') s.data⟩

/-! ### Model of the `url` crate's parser (WHATWG URL Standard)

`normalize_base_url` observes only three things about `url::Url::parse`:
whether it succeeds, the (lowercased) `scheme()`, and whether `host_str()`
is present.  The model below implements the WHATWG basic URL parser
restricted to those observations: leading/trailing C0-control-or-space
stripping, ASCII tab/newline removal, scheme parsing with lowercasing,
special-scheme authority parsing with host/port validation.  Host details
for non-`http(s)` schemes are simplified (the source rejects those schemes
before ever looking at the host). -/

structure ParsedUrl where
  scheme : String
  host : Option String
deriving DecidableEq

/-- C0 control characters and U+0020, stripped from both ends of parser input. -/
def isC0OrSpace (c : Char) : Bool := c.val ≤ 0x20

/-- ASCII tab and newline characters, removed everywhere in parser input. -/
def isAsciiTabOrNewline (c : Char) : Bool :=
  c.toNat = 9 || c.toNat = 10 || c.toNat = 13

def isSchemeStartChar (c : Char) : Bool := c.isAlpha

def isSchemeBodyChar (c : Char) : Bool :=
  c.isAlpha || c.isDigit || c == '+' || c == '-' || c == '.'

/-- Lowercase an ASCII letter, leaving every other character unchanged. -/
def asciiLower (c : Char) : Char :=
  if 'A' ≤ c && c ≤ 'Z' then Char.ofNat (c.toNat + 32) else c

/-- WHATWG special schemes other than `file`. -/
def specialNonFileScheme (s : String) : Bool :=
  s == "http" || s == "https" || s == "ws" || s == "wss" || s == "ftp"

/-- WHATWG forbidden host code points (the subset relevant to hostname text). -/
def forbiddenHostChar (c : Char) : Bool :=
  c.val == 0x00 || c == '\t' || c == '\n' || c == '\r' || c == ' ' || c == '#' ||
  c == '/' || c == ':' || c == '<' || c == '>' || c == '?' || c == '@' ||
  c == '[' || c == '\\' || c == ']' || c == '^' || c == '|'

/-- Characters that terminate the authority component. -/
def authorityTermChar (special : Bool) (c : Char) : Bool :=
  c == '/' || c == '?' || c == '#' || (special && c == '\\')

/-- Numeric value of a list of ASCII digits (used for port validation). -/
def digitsToNat (l : List Char) : Nat :=
  l.foldl (fun acc c => acc * 10 + (c.toNat - '0'.toNat)) 0

/-- Validate an authority's port suffix: after the separating colon only ASCII
digits are allowed and the value must fit in 16 bits. -/
def portOk (l : List Char) : Bool :=
  l.all (·.isDigit) && (l.isEmpty || digitsToNat l ≤ 65535)

/-- Split an authority (after userinfo removal) into host text and port text and
validate both; returns the host on success. -/
def parseHostPort (special : Bool) (hostport : List Char) : Option String :=
  match hostport with
  | '[' :: rest =>
      -- bracketed IPv6 literal: require the closing bracket
      let inside := rest.takeWhile (fun c => c ≠ ']')
      match rest.drop inside.length with
      | ']' :: after =>
          let portPart :=
            match after with
            | [] => some ([] : List Char)
            | ':' :: p => some p
            | _ => none
          match portPart with
          | some p => if portOk p then some ⟨'[' :: inside ++ [']']⟩ else none
          | none => none
      | _ => none
  | _ =>
      let host := hostport.takeWhile (fun c => c ≠ ':')
      let p :=
        match hostport.drop host.length with
        | [] => ([] : List Char)
        | _ :: rest => rest
      if host.any forbiddenHostChar then none
      else if special && host.isEmpty then none
      else if portOk p then some ⟨host⟩ else none

/-- Model of `url::Url::parse` restricted to the observations made by
`normalize_base_url` (success, lowercased scheme, host presence). -/
def url_parse (input : String) : Option ParsedUrl :=
  let chars :=
    (dropWhileEnd isC0OrSpace (input.data.dropWhile isC0OrSpace)).filter
      (fun c => !isAsciiTabOrNewline c)
  match chars with
  | [] => none
  | c :: rest =>
    if isSchemeStartChar c then
      let schemeChars := (c :: rest).takeWhile isSchemeBodyChar
      match (c :: rest).drop schemeChars.length with
      | ':' :: r =>
        let scheme : String := ⟨schemeChars.map asciiLower⟩
        if specialNonFileScheme scheme then
          -- special authority slashes: skip every leading `/` and `\`
          let r2 := r.dropWhile (fun c => c == '/' || c == '\\')
          let auth := r2.takeWhile (fun c => !authorityTermChar true c)
          let hostport :=
            if auth.contains '@' then (auth.reverse.takeWhile (fun c => c ≠ '@')).reverse
            else auth
          match parseHostPort true hostport with
          | none => none
          | some h => some ⟨scheme, some h⟩
        else if scheme == "file" then
          -- host details irrelevant: the source rejects the scheme first
          some ⟨scheme, none⟩
        else
          match r with
          | '/' :: '/' :: r2 =>
            let auth := r2.takeWhile (fun c => !authorityTermChar false c)
            let hostport :=
              if auth.contains '@' then (auth.reverse.takeWhile (fun c => c ≠ '@')).reverse
              else auth
            match parseHostPort false hostport with
            | none => none
            | some h => some ⟨scheme, some h⟩
          | _ => some ⟨scheme, none⟩
      | _ => none
    else none

/-! ### `config.rs`: error type and `normalize_base_url` -/

/-- Error enumeration of `config.rs` (`ConfigError`). -/
inductive ConfigError where
  | MissingHomeDir
  | InvalidUrl (msg : String)
  | Io (msg : String)
  | Json (msg : String)
deriving DecidableEq

/-- Display form of `ConfigError` (the `thiserror` messages), used by the
`map_err(|e| e.to_string())` calls in the commands. -/
def ConfigError.toMessage : ConfigError → String
  | .MissingHomeDir => "missing user home directory"
  | .InvalidUrl m => "invalid url: " ++ m
  | .Io m => "io error: " ++ m
  | .Json m => "json error: " ++ m

/-- Embedding of `normalize_base_url` from `config.rs`. -/
def normalize_base_url (raw : String) : Except ConfigError String :=
  let trimmed := trimEndSlashes (rustTrim raw)
  if trimmed = "" then .error (.InvalidUrl "empty url")
  else
    match url_parse trimmed with
    | none => .error (.InvalidUrl "url parse error")
    | some parsed =>
      if parsed.scheme = "http" ∨ parsed.scheme = "https" then
        if parsed.host.isSome then .ok trimmed
        else .error (.InvalidUrl "missing host")
      else .error (.InvalidUrl ("unsupported scheme: " ++ parsed.scheme))

example : normalize_base_url "http://a.com/" = .ok "http://a.com" := by decide
example : normalize_base_url "  https://a.com/x///" = .ok "https://a.com/x" := by decide
example : normalize_base_url "ftp://a.com" =
    .error (.InvalidUrl "unsupported scheme: ftp") := by decide
example : normalize_base_url "http://" = .error (.InvalidUrl "url parse error") := by decide
example : normalize_base_url "" = .error (.InvalidUrl "empty url") := by decide
example : normalize_base_url "///" = .error (.InvalidUrl "empty url") := by decide
example : normalize_base_url "HTTP://A.com" = .ok "HTTP://A.com" := by decide
example : normalize_base_url "http://a.com/x /" = .ok "http://a.com/x " := by decide
example : normalize_base_url "http://a.com/x " = .ok "http://a.com/x" := by decide
example : normalize_base_url "a.com" = .error (.InvalidUrl "url parse error") := by decide
example : normalize_base_url "http://a.com:8080/x" = .ok "http://a.com:8080/x" := by decide
example : normalize_base_url "http://a.com:999999" =
    .error (.InvalidUrl "url parse error") := by decide

/-! ### Filesystem model

Paths are lists of components (the last component is the file name).  A
filesystem is a finite map from paths to file contents plus the set of
directories created so far; the primitive operations below are the effects
`atomic_write` and the config commands perform. -/

abbrev FsPath := List String

structure FS where
  files : List (FsPath × String)
  dirs : List FsPath
deriving DecidableEq

def findFile : List (FsPath × String) → FsPath → Option String
  | [], _ => none
  | (q, d) :: rest, p => if q = p then some d else findFile rest p

def removeEntry : List (FsPath × String) → FsPath → List (FsPath × String)
  | [], _ => []
  | (q, d) :: rest, p => if q = p then removeEntry rest p else (q, d) :: removeEntry rest p

def FS.getFile (fs : FS) (p : FsPath) : Option String := findFile fs.files p

def FS.setFile (fs : FS) (p : FsPath) (data : String) : FS :=
  ⟨(p, data) :: removeEntry fs.files p, fs.dirs⟩

def FS.removeFile (fs : FS) (p : FsPath) : FS :=
  ⟨removeEntry fs.files p, fs.dirs⟩

def FS.fileExists (fs : FS) (p : FsPath) : Bool := (fs.getFile p).isSome

def FS.createDirAll (fs : FS) (p : FsPath) : FS := ⟨fs.files, p :: fs.dirs⟩

def FS.rename (fs : FS) (src dst : FsPath) : FS :=
  match fs.getFile src with
  | none => fs
  | some d => (fs.removeFile src).setFile dst d

/-! ### Paths of `config.rs` -/

/-- Rust `Path::file_stem`-style removal of the final extension of a file
name (the part after the last dot, unless that dot is the leading
character). -/
def dropLastExt (l : List Char) : List Char :=
  match l.reverse.dropWhile (fun c => c ≠ '.') with
  | [] => l
  | _ :: [] => l
  | _ :: rest => rest.reverse

/-- Rust `Path::with_extension` restricted to a file-name component. -/
def fileWithExtension (name ext : String) : String :=
  ⟨dropLastExt name.data⟩ ++ "." ++ ext

/-- Rust `Path::with_extension` on a path: replace the extension of the last
component. -/
def pathWithExtension (p : FsPath) (ext : String) : FsPath :=
  p.dropLast ++ [fileWithExtension (p.getLastD "") ext]

/-- Embedding of `config_dir`: `{home}/.config/antihook`, or `MissingHomeDir`
when the platform offers no home directory. -/
def config_dir (home : Option FsPath) : Except ConfigError FsPath :=
  match home with
  | none => .error .MissingHomeDir
  | some h => .ok (h ++ [".config", "antihook"])

/-- Embedding of `config_file_path`: `{config_dir}/config.json`. -/
def config_file_path (home : Option FsPath) : Except ConfigError FsPath :=
  match config_dir home with
  | .error e => .error e
  | .ok d => .ok (d ++ ["config.json"])

/-! ### `atomic_write` as a step sequence

The four filesystem effects of `atomic_write`, in source order; running a
prefix of the step list models interrupting the operation between two
steps. -/

inductive WriteStep where
  | createDirs
  | writeTmp
  | removeTarget
  | renameTmp
deriving DecidableEq

def atomic_write_steps : List WriteStep :=
  [.createDirs, .writeTmp, .removeTarget, .renameTmp]

/-- The temporary path `path.with_extension("json.tmp")`. -/
def tmp_path (p : FsPath) : FsPath := pathWithExtension p "json.tmp"

/-- Effect of a single `atomic_write` step on the filesystem. -/
def runWriteStep (path : FsPath) (data : String) (fs : FS) : WriteStep → FS
  | .createDirs => fs.createDirAll path.dropLast
  | .writeTmp => fs.setFile (tmp_path path) data
  | .removeTarget => if fs.fileExists path then fs.removeFile path else fs
  | .renameTmp => fs.rename (tmp_path path) path

/-- Filesystem state after the first `k` steps of `atomic_write` (interruption
just before step `k + 1`). -/
def atomic_write_upto (path : FsPath) (data : String) (fs : FS) (k : Nat) : FS :=
  (atomic_write_steps.take k).foldl (runWriteStep path data) fs

/-- Embedding of `atomic_write`: all four steps run to completion. -/
def atomic_write (path : FsPath) (data : String) (fs : FS) : FS :=
  atomic_write_upto path data fs 4

/-! ### JSON serialization model (`serde_json`) -/

def hexDigitLower (n : Nat) : Char :=
  Char.ofNat (if n < 10 then 48 + n else 87 + n)

/-- serde_json's escaping of one character inside a JSON string literal. -/
def escapeChar (c : Char) : List Char :=
  if c = '"' then ['\\', '"']
  else if c = '\\' then ['\\', '\\']
  else if c = '\x08' then ['\\', 'b']
  else if c = '\t' then ['\\', 't']
  else if c = '\n' then ['\\', 'n']
  else if c = '\x0c' then ['\\', 'f']
  else if c = '\r' then ['\\', 'r']
  else if c.toNat < 0x20 then
    ['\\', 'u', '0', '0', hexDigitLower (c.toNat / 16), hexDigitLower (c.toNat % 16)]
  else [c]

def escapeList : List Char → List Char
  | [] => []
  | c :: rest => escapeChar c ++ escapeList rest

/-- A JSON string literal with serde_json escaping. -/
def jsonStringLit (s : String) : String := "\"" ++ ⟨escapeList s.data⟩ ++ "\""

/-- serde_json `to_string_pretty` output for `AppConfig` (an object with the
single string field `kiro_server_url`, two-space indentation). -/
def to_string_pretty_config (v : String) : String :=
  "\x7b\n  \"kiro_server_url\": " ++ jsonStringLit v ++ "\n\x7d"

def isJsonWs (c : Char) : Bool :=
  c.toNat = 32 || c.toNat = 9 || c.toNat = 10 || c.toNat = 13

def decodeHexDigit (c : Char) : Option Nat :=
  let n := c.toNat
  if 48 ≤ n ∧ n ≤ 57 then some (n - 48)
  else if 97 ≤ n ∧ n ≤ 102 then some (n - 87)
  else if 65 ≤ n ∧ n ≤ 70 then some (n - 55)
  else none

/-- Decoding of a two-character escape sequence inside a JSON string literal. -/
def escShortChar (e : Char) : Option Char :=
  if e = '"' then some '"'
  else if e = '\\' then some '\\'
  else if e = '/' then some '/'
  else if e = 'b' then some '\x08'
  else if e = 'f' then some '\x0c'
  else if e = 'n' then some '\n'
  else if e = 'r' then some '\r'
  else if e = 't' then some '\t'
  else none

/-- Decode the body of a JSON string literal up to its closing quote; returns
the decoded characters and the input remaining after the closing quote. -/
def unescapeBody : List Char → Option (List Char × List Char)
  | [] => none
  | c :: rest =>
    if c = '"' then some ([], rest)
    else if c = '\\' then
      match rest with
      | [] => none
      | e :: rest2 =>
        if e = 'u' then
          match rest2 with
          | d1 :: d2 :: d3 :: d4 :: rest3 =>
            match decodeHexDigit d1, decodeHexDigit d2, decodeHexDigit d3,
                decodeHexDigit d4 with
            | some n1, some n2, some n3, some n4 =>
              let n := ((n1 * 16 + n2) * 16 + n3) * 16 + n4
              if n < 0xD800 ∨ 0xE000 ≤ n then
                match unescapeBody rest3 with
                | some (l, r) => some (Char.ofNat n :: l, r)
                | none => none
              else none
            | _, _, _, _ => none
          | _ => none
        else
          match escShortChar e with
          | none => none
          | some ch =>
            match unescapeBody rest2 with
            | some (l, r) => some (ch :: l, r)
            | none => none
    else
      match unescapeBody rest with
      | some (l, r) => some (c :: l, r)
      | none => none

/-- Decode one JSON string literal (expects the opening quote). -/
def parseJsonStringLit : List Char → Option (List Char × List Char)
  | '"' :: rest => unescapeBody rest
  | _ => none

/-- Modelled from serde_json `from_slice` restricted to the only JSON shape
`save_config` ever produces: an object with a single string-valued member.
Returns the (key, value) pair of that member. -/
def parse_single_field_object (s : String) : Option (String × String) :=
  match s.data.dropWhile isJsonWs with
  | '\x7b' :: r =>
    match parseJsonStringLit (r.dropWhile isJsonWs) with
    | none => none
    | some (key, r2) =>
      match r2.dropWhile isJsonWs with
      | ':' :: r3 =>
        match parseJsonStringLit (r3.dropWhile isJsonWs) with
        | none => none
        | some (val, r4) =>
          match r4.dropWhile isJsonWs with
          | '\x7d' :: r5 =>
            if r5.dropWhile isJsonWs = [] then some (⟨key⟩, ⟨val⟩) else none
          | _ => none
      | _ => none
  | _ => none

/-- serde's derived `Deserialize` for `AppConfig` succeeds only when the
`kiro_server_url` member is present. -/
def from_slice_config (s : String) : Option String :=
  match parse_single_field_object s with
  | some (k, v) => if k = "kiro_server_url" then some v else none
  | none => none

/-! ### The config commands -/

/-- Embedding of the `AppConfig` struct. -/
structure AppConfig where
  kiro_server_url : String
deriving DecidableEq

/-- Embedding of the `load_config` command over the filesystem model. -/
def load_config (home : Option FsPath) (fs : FS) : Except String (Option AppConfig) :=
  match config_file_path home with
  | .error e => .error e.toMessage
  | .ok path =>
    match fs.getFile path with
    | none => .ok none
    | some data =>
      match from_slice_config data with
      | none => .error (ConfigError.Json "invalid json").toMessage
      | some v => .ok (some ⟨v⟩)

/-- Embedding of the `save_config` command: returns the filesystem after the
call together with the command's result. -/
def save_config (home : Option FsPath) (fs : FS) (kiro_server_url : String) :
    FS × Except String String :=
  match normalize_base_url kiro_server_url with
  | .error e => (fs, .error e.toMessage)
  | .ok normalized =>
    let json := to_string_pretty_config normalized ++ "\n"
    match config_file_path home with
    | .error e => (fs, .error e.toMessage)
    | .ok path => (atomic_write path json fs, .ok normalized)

example :
    (save_config (some ["home"]) ⟨[], []⟩ "http://a.com/").2 = .ok "http://a.com" := by
  decide

example :
    load_config (some ["home"]) (save_config (some ["home"]) ⟨[], []⟩ "http://a.com/").1 =
      .ok (some ⟨"http://a.com"⟩) := by
  decide

example :
    (save_config (some ["home"]) ⟨[], []⟩ "http://a.com/").1.getFile
        ["home", ".config", "antihook", "config.json"] =
      some "\x7b\n  \"kiro_server_url\": \"http://a.com\"\n\x7d\n" := by
  decide

example : tmp_path ["home", ".config", "antihook", "config.json"] =
    ["home", ".config", "antihook", "config.json.tmp"] := by decide

/-! ### `health.rs`: `fetch_health` and `check_health` -/

/-- Embedding of `HealthCheckResult`.  The JSON payload is represented by the
value the JSON-parser oracle returns for the body text. -/
structure HealthCheckResult where
  request_url : String
  ok : Bool
  status_code : Option Nat
  elapsed_ms : Nat
  payload : Option String
  error : Option String
deriving DecidableEq

/-- Outcome of one HTTP GET as observed by `fetch_health`: a transport-level
failure carrying the error's display text, or a received response with its
status code and body text (a failed `resp.text()` read is already collapsed
to `""` by `unwrap_or_default`).  Both record the measured elapsed time. -/
inductive FetchOutcome where
  | transportError (msg : String) (elapsed : Nat)
  | response (status : Nat) (body : String) (elapsed : Nat)
deriving DecidableEq

/-- Embedding of `fetch_health`; `jsonParse` is the oracle standing for
`serde_json::from_str::<Value>` on the body (`none` when the body is not
valid JSON). -/
def fetch_health (jsonParse : String → Option String) (request_url : String)
    (outcome : FetchOutcome) : HealthCheckResult :=
  match outcome with
  | .transportError msg elapsed =>
      { request_url := request_url, ok := false, status_code := none,
        elapsed_ms := elapsed, payload := none, error := some msg }
  | .response status body elapsed =>
      { request_url := request_url, ok := 200 ≤ status && status ≤ 299,
        status_code := some status, elapsed_ms := elapsed,
        payload := jsonParse body, error := none }

/-- Oracle environment of one `check_health` call: the outcome of
`reqwest::Client::builder().build()`, the transport outcome of a GET to each
URL, and the JSON parser applied to response bodies. -/
structure ProbeEnv where
  clientBuildError : Option String
  outcome : String → FetchOutcome
  jsonParse : String → Option String

/-- First candidate URL built by `check_health`: `{base}/api/health`. -/
def candidate1 (base : String) : String := base ++ "/api/health"

/-- Second candidate URL built by `check_health`: `{base}/backend/api/health`. -/
def candidate2 (base : String) : String := base ++ "/backend/api/health"

/-- The ordered candidate list built by `check_health`. -/
def candidates (base : String) : List String :=
  [candidate1 base, candidate2 base]

/-- The result `fetch_health` produces for one URL under the oracle
environment (the body of each loop iteration). -/
def probe_result (env : ProbeEnv) (u : String) : HealthCheckResult :=
  fetch_health env.jsonParse u (env.outcome u)

/-- How the probe loop of `check_health` terminates: an early `return` on a
successful probe, or falling out of the loop with the final value of the
`last` variable. -/
inductive LoopExit where
  | early (r : HealthCheckResult)
  | exhausted (last : Option HealthCheckResult)
deriving DecidableEq

/-- The `for (idx, url) in candidates` loop of `check_health`.  Besides the
exit value it returns the list of URLs actually probed — instrumentation used
to state that later candidates are never requested; the Rust loop performs
the same probes in the same order. -/
def health_loop (env : ProbeEnv) : List String → Option HealthCheckResult →
    LoopExit × List String
  | [], last => (.exhausted last, [])
  | url :: rest, _ =>
      let result := fetch_health env.jsonParse url (env.outcome url)
      let should_try_next :=
        !rest.isEmpty && (result.status_code == some 404 || result.status_code == none)
      if result.ok then (.early result, [url])
      else if should_try_next then
        let next := health_loop env rest (some result)
        (next.1, url :: next.2)
      else (.exhausted (some result), [url])

/-- The synthetic result `check_health` falls back to in its final
`unwrap_or`. -/
def fallback_result (base : String) : HealthCheckResult :=
  { request_url := base ++ "/api/health", ok := false, status_code := none,
    elapsed_ms := 0, payload := none, error := some "unknown error" }

/-- Embedding of the `check_health` command.  Besides the returned
`HealthCheckResult` it reports the URLs actually requested and whether the
synthetic fallback was used (instrumentation; the Rust function returns only
the result). -/
def check_health (env : ProbeEnv) (base_url : String) :
    Except String (HealthCheckResult × List String × Bool) :=
  match normalize_base_url base_url with
  | .error e => .error e.toMessage
  | .ok base =>
    match env.clientBuildError with
    | some e => .error e
    | none =>
      match health_loop env (candidates base) none with
      | (.early r, t) => .ok (r, t, false)
      | (.exhausted (some r), t) => .ok (r, t, false)
      | (.exhausted none, t) => .ok (fallback_result base, t, true)

/-- An environment for concrete evaluation: status-by-URL table, bodies parse
to themselves. -/
def tableEnv (table : List (String × FetchOutcome)) : ProbeEnv :=
  { clientBuildError := none,
    outcome := fun url =>
      (table.findSome? fun e => if e.1 = url then some e.2 else none).getD
        (.transportError "connection refused" 1),
    jsonParse := fun s => if s = "" then none else some s }

example :
    check_health (tableEnv [("http://h/api/health", .response 200 "ok-body" 5)]) "http://h/" =
      .ok ({ request_url := "http://h/api/health", ok := true, status_code := some 200,
             elapsed_ms := 5, payload := some "ok-body", error := none },
           ["http://h/api/health"], false) := by
  decide

example :
    check_health
        (tableEnv [("http://h/api/health", .response 404 "" 5),
                   ("http://h/backend/api/health", .response 200 "b" 7)]) "http://h" =
      .ok ({ request_url := "http://h/backend/api/health", ok := true,
             status_code := some 200, elapsed_ms := 7, payload := some "b",
             error := none },
           ["http://h/api/health", "http://h/backend/api/health"], false) := by
  decide

example :
    check_health (tableEnv [("http://h/api/health", .response 500 "" 5)]) "http://h" =
      .ok ({ request_url := "http://h/api/health", ok := false, status_code := some 500,
             elapsed_ms := 5, payload := none, error := none },
           ["http://h/api/health"], false) := by
  decide

example :
    check_health (tableEnv []) "http://h" =
      .ok ({ request_url := "http://h/backend/api/health", ok := false,
             status_code := none, elapsed_ms := 1, payload := none,
             error := some "connection refused" },
           ["http://h/api/health", "http://h/backend/api/health"], false) := by
  decide

/-! ### Helper lemmas: string trimming -/

theorem dropWhile_dropWhile (p : Char → Bool) (l : List Char) :
    (l.dropWhile p).dropWhile p = l.dropWhile p := by
  induction l with
  | nil => rfl
  | cons c l ih =>
    by_cases h : p c = true
    · simp [List.dropWhile_cons, h, ih]
    · simp [List.dropWhile_cons, h]

theorem dropWhileEnd_idem (p : Char → Bool) (l : List Char) :
    dropWhileEnd p (dropWhileEnd p l) = dropWhileEnd p l := by
  simp [dropWhileEnd, dropWhile_dropWhile]

theorem head?_dropWhile_not (p : Char → Bool) (l : List Char) (c : Char)
    (h : (l.dropWhile p).head? = some c) : p c = false := by
  induction l with
  | nil => simp [List.dropWhile] at h
  | cons a l ih =>
    by_cases hp : p a = true
    · rw [List.dropWhile_cons, if_pos hp] at h
      exact ih h
    · rw [List.dropWhile_cons, if_neg hp] at h
      simp only [List.head?_cons, Option.some.injEq] at h
      subst h
      simpa using hp

theorem getLast?_dropWhileEnd_not (p : Char → Bool) (l : List Char) (c : Char)
    (h : (dropWhileEnd p l).getLast? = some c) : p c = false := by
  rw [dropWhileEnd, List.getLast?_reverse] at h
  exact head?_dropWhile_not p l.reverse c h

theorem trimEndSlashes_idem (s : String) :
    trimEndSlashes (trimEndSlashes s) = trimEndSlashes s := by
  simp [trimEndSlashes, dropWhileEnd_idem]

/-! ### Helper lemmas: filesystem primitives -/

theorem findFile_removeEntry_same (fl : List (FsPath × String)) (p : FsPath) :
    findFile (removeEntry fl p) p = none := by
  induction fl with
  | nil => rfl
  | cons e fl ih =>
    obtain ⟨q, d⟩ := e
    by_cases h : q = p
    · simp [removeEntry, h, ih]
    · simp [removeEntry, findFile, h, ih]

theorem findFile_removeEntry_other (fl : List (FsPath × String)) (p q : FsPath)
    (hq : q ≠ p) : findFile (removeEntry fl p) q = findFile fl q := by
  induction fl with
  | nil => rfl
  | cons e fl ih =>
    obtain ⟨a, d⟩ := e
    by_cases h : a = p
    · subst h
      rw [removeEntry, if_pos rfl, ih, findFile, if_neg (fun hpq => hq hpq.symm)]
    · rw [removeEntry, if_neg h, findFile, findFile]
      by_cases haq : a = q
      · rw [if_pos haq, if_pos haq]
      · rw [if_neg haq, if_neg haq, ih]

theorem FS.getFile_setFile_same (fs : FS) (p : FsPath) (d : String) :
    (fs.setFile p d).getFile p = some d := by
  simp [FS.setFile, FS.getFile, findFile]

theorem FS.getFile_setFile_other (fs : FS) (p q : FsPath) (d : String) (h : q ≠ p) :
    (fs.setFile p d).getFile q = fs.getFile q := by
  simp only [FS.setFile, FS.getFile, findFile]
  rw [if_neg (fun hpq => h hpq.symm), findFile_removeEntry_other _ _ _ h]

theorem FS.getFile_removeFile_same (fs : FS) (p : FsPath) :
    (fs.removeFile p).getFile p = none := by
  simp [FS.removeFile, FS.getFile, findFile_removeEntry_same]

theorem FS.getFile_removeFile_other (fs : FS) (p q : FsPath) (h : q ≠ p) :
    (fs.removeFile p).getFile q = fs.getFile q := by
  simp [FS.removeFile, FS.getFile, findFile_removeEntry_other _ _ _ h]

/-! ### Helper lemmas: paths -/

theorem dropLast_snoc {α : Type} (l : List α) (a : α) : (l ++ [a]).dropLast = l := by
  simp

theorem getLastD_snoc {α : Type} (l : List α) (a d : α) : (l ++ [a]).getLastD d = a := by
  simp

theorem config_path_snoc (home : FsPath) :
    home ++ [".config", "antihook", "config.json"] =
      (home ++ [".config", "antihook"]) ++ ["config.json"] := by
  simp

theorem tmp_path_config (home : FsPath) :
    tmp_path (home ++ [".config", "antihook", "config.json"]) =
      (home ++ [".config", "antihook"]) ++ ["config.json.tmp"] := by
  rw [config_path_snoc, tmp_path, pathWithExtension, dropLast_snoc, getLastD_snoc]
  congr 1

theorem tmp_path_config_ne (home : FsPath) :
    tmp_path (home ++ [".config", "antihook", "config.json"]) ≠
      home ++ [".config", "antihook", "config.json"] := by
  rw [tmp_path_config, config_path_snoc]
  intro h
  have h2 := List.append_cancel_left h
  exact absurd h2 (by decide)

/-! ### Helper lemmas: `atomic_write` -/

theorem atomic_write_upto_one_getFile (p : FsPath) (d : String) (fs : FS) (q : FsPath) :
    (atomic_write_upto p d fs 1).getFile q = fs.getFile q := rfl

theorem atomic_write_upto_two_getFile (p : FsPath) (d : String) (fs : FS)
    (htmp : tmp_path p ≠ p) :
    (atomic_write_upto p d fs 2).getFile p = fs.getFile p := by
  show ((fs.createDirAll p.dropLast).setFile (tmp_path p) d).getFile p = fs.getFile p
  rw [FS.getFile_setFile_other _ _ _ _ (Ne.symm htmp)]
  rfl

theorem atomic_write_upto_two_getFile_tmp (p : FsPath) (d : String) (fs : FS) :
    (atomic_write_upto p d fs 2).getFile (tmp_path p) = some d := by
  show ((fs.createDirAll p.dropLast).setFile (tmp_path p) d).getFile (tmp_path p) = some d
  exact FS.getFile_setFile_same _ _ _

theorem atomic_write_upto_three_getFile (p : FsPath) (d : String) (fs : FS) :
    (atomic_write_upto p d fs 3).getFile p = none := by
  have hstep : atomic_write_upto p d fs 3 =
      (if (atomic_write_upto p d fs 2).fileExists p
       then (atomic_write_upto p d fs 2).removeFile p
       else atomic_write_upto p d fs 2) := rfl
  rw [hstep]
  by_cases h : (atomic_write_upto p d fs 2).fileExists p = true
  · rw [if_pos h, FS.getFile_removeFile_same]
  · rw [if_neg h]
    cases hg : (atomic_write_upto p d fs 2).getFile p with
    | none => rfl
    | some v => exact absurd (by rw [FS.fileExists, hg]; rfl) h

theorem atomic_write_upto_three_getFile_tmp (p : FsPath) (d : String) (fs : FS)
    (htmp : tmp_path p ≠ p) :
    (atomic_write_upto p d fs 3).getFile (tmp_path p) = some d := by
  have hstep : atomic_write_upto p d fs 3 =
      (if (atomic_write_upto p d fs 2).fileExists p
       then (atomic_write_upto p d fs 2).removeFile p
       else atomic_write_upto p d fs 2) := rfl
  rw [hstep]
  by_cases h : (atomic_write_upto p d fs 2).fileExists p = true
  · rw [if_pos h, FS.getFile_removeFile_other _ _ _ htmp,
      atomic_write_upto_two_getFile_tmp]
  · rw [if_neg h, atomic_write_upto_two_getFile_tmp]

theorem atomic_write_getFile_target (p : FsPath) (d : String) (fs : FS)
    (htmp : tmp_path p ≠ p) :
    (atomic_write p d fs).getFile p = some d := by
  have hstep4 : atomic_write p d fs =
      (atomic_write_upto p d fs 3).rename (tmp_path p) p := rfl
  rw [hstep4, FS.rename, atomic_write_upto_three_getFile_tmp p d fs htmp]
  exact FS.getFile_setFile_same _ _ _

/-! ### Helper lemmas: JSON string escaping round-trip -/

theorem decodeHexDigit_hexDigitLower (n : Nat) (h : n < 16) :
    decodeHexDigit (hexDigitLower n) = some n := by
  have hfin : ∀ m : Fin 16, decodeHexDigit (hexDigitLower m.val) = some m.val := by decide
  exact hfin ⟨n, h⟩

theorem unescapeBody_quote (tail : List Char) :
    unescapeBody ('"' :: tail) = some ([], tail) := by
  rw [unescapeBody.eq_def]
  simp

theorem unescapeBody_esc (e ch : Char) (tail : List Char)
    (hu : ¬ e = 'u') (he : escShortChar e = some ch) :
    unescapeBody ('\\' :: e :: tail) =
      (match unescapeBody tail with
       | some (l, r) => some (ch :: l, r)
       | none => none) := by
  rw [unescapeBody.eq_def]
  simp only [if_neg (show ¬('\\' : Char) = '"' by decide), if_pos rfl, if_neg hu, he,
    if_true]

theorem unescapeBody_u (d1 d2 d3 d4 : Char) (tail : List Char) (n1 n2 n3 n4 : Nat)
    (h1 : decodeHexDigit d1 = some n1) (h2 : decodeHexDigit d2 = some n2)
    (h3 : decodeHexDigit d3 = some n3) (h4 : decodeHexDigit d4 = some n4)
    (hlow : ((n1 * 16 + n2) * 16 + n3) * 16 + n4 < 0xD800) :
    unescapeBody ('\\' :: 'u' :: d1 :: d2 :: d3 :: d4 :: tail) =
      (match unescapeBody tail with
       | some (l, r) => some (Char.ofNat (((n1 * 16 + n2) * 16 + n3) * 16 + n4) :: l, r)
       | none => none) := by
  rw [unescapeBody.eq_def]
  simp only [if_neg (show ¬('\\' : Char) = '"' by decide), if_pos rfl, h1, h2, h3, h4,
    if_true]
  rw [if_pos (Or.inl hlow)]

theorem unescapeBody_plain (c : Char) (tail : List Char)
    (h1 : ¬ c = '"') (h2 : ¬ c = '\\') :
    unescapeBody (c :: tail) =
      (match unescapeBody tail with
       | some (l, r) => some (c :: l, r)
       | none => none) := by
  rw [unescapeBody.eq_def]
  simp only [if_neg h1, if_neg h2]

theorem unescapeBody_escapeList (l rest : List Char) :
    unescapeBody (escapeList l ++ '"' :: rest) = some (l, rest) := by
  induction l with
  | nil => exact unescapeBody_quote rest
  | cons c l ih =>
    simp only [escapeList, List.append_assoc]
    by_cases h1 : c = '"'
    · subst h1
      rw [show escapeChar '"' = ['\\', '"'] from by decide, List.cons_append,
        List.cons_append, List.nil_append,
        unescapeBody_esc '"' '"' _ (by decide) (by decide), ih]
    · by_cases h2 : c = '\\'
      · subst h2
        rw [show escapeChar '\\' = ['\\', '\\'] from by decide, List.cons_append,
          List.cons_append, List.nil_append,
          unescapeBody_esc '\\' '\\' _ (by decide) (by decide), ih]
      · by_cases h3 : c = '\x08'
        · subst h3
          rw [show escapeChar '\x08' = ['\\', 'b'] from by decide, List.cons_append,
            List.cons_append, List.nil_append,
            unescapeBody_esc 'b' '\x08' _ (by decide) (by decide), ih]
        · by_cases h4 : c = '\t'
          · subst h4
            rw [show escapeChar '\t' = ['\\', 't'] from by decide, List.cons_append,
              List.cons_append, List.nil_append,
              unescapeBody_esc 't' '\t' _ (by decide) (by decide), ih]
          · by_cases h5 : c = '\n'
            · subst h5
              rw [show escapeChar '\n' = ['\\', 'n'] from by decide, List.cons_append,
                List.cons_append, List.nil_append,
                unescapeBody_esc 'n' '\n' _ (by decide) (by decide), ih]
            · by_cases h6 : c = '\x0c'
              · subst h6
                rw [show escapeChar '\x0c' = ['\\', 'f'] from by decide, List.cons_append,
                  List.cons_append, List.nil_append,
                  unescapeBody_esc 'f' '\x0c' _ (by decide) (by decide), ih]
              · by_cases h7 : c = '\r'
                · subst h7
                  rw [show escapeChar '\r' = ['\\', 'r'] from by decide, List.cons_append,
                    List.cons_append, List.nil_append,
                    unescapeBody_esc 'r' '\r' _ (by decide) (by decide), ih]
                · by_cases h8 : c.toNat < 0x20
                  · have hesc : escapeChar c =
                        ['\\', 'u', '0', '0', hexDigitLower (c.toNat / 16),
                         hexDigitLower (c.toNat % 16)] := by
                      simp [escapeChar, h1, h2, h3, h4, h5, h6, h7, h8]
                    have hd0 : decodeHexDigit '0' = some 0 := by decide
                    have hd3 : decodeHexDigit (hexDigitLower (c.toNat / 16)) =
                        some (c.toNat / 16) := decodeHexDigit_hexDigitLower _ (by omega)
                    have hd4 : decodeHexDigit (hexDigitLower (c.toNat % 16)) =
                        some (c.toNat % 16) := decodeHexDigit_hexDigitLower _ (by omega)
                    rw [hesc, List.cons_append, List.cons_append, List.cons_append,
                      List.cons_append, List.cons_append, List.cons_append,
                      List.nil_append,
                      unescapeBody_u _ _ _ _ _ 0 0 (c.toNat / 16) (c.toNat % 16)
                        hd0 hd0 hd3 hd4 (by omega), ih,
                      show ((0 * 16 + 0) * 16 + c.toNat / 16) * 16 + c.toNat % 16 =
                        c.toNat from by omega,
                      Char.ofNat_toNat]
                  · have hesc : escapeChar c = [c] := by
                      simp [escapeChar, h1, h2, h3, h4, h5, h6, h7, h8]
                    rw [hesc, List.cons_append, List.nil_append,
                      unescapeBody_plain c _ h1 h2, ih]

theorem dropWhile_cons_pos (p : Char → Bool) (a : Char) (l : List Char) (h : p a = true) :
    (a :: l).dropWhile p = l.dropWhile p := by
  rw [List.dropWhile_cons, if_pos h]

theorem dropWhile_cons_neg (p : Char → Bool) (a : Char) (l : List Char) (h : p a = false) :
    (a :: l).dropWhile p = a :: l := by
  rw [List.dropWhile_cons, if_neg (by simp [h])]

theorem parse_pretty_config (v : String) :
    parse_single_field_object (to_string_pretty_config v ++ "\n") =
      some ("kiro_server_url", v) := by
  have h0 : (to_string_pretty_config v ++ "\n").data =
      '\x7b' :: '\n' :: ' ' :: ' ' :: '"' ::
        ("kiro_server_url".data ++ ('"' :: ':' :: ' ' :: '"' ::
          (escapeList v.data ++ '"' :: '\n' :: '\x7d' :: '\n' :: []))) := by
    simp only [to_string_pretty_config, jsonStringLit, String.data_append]
    simp [List.append_assoc]
  have hkey : unescapeBody ("kiro_server_url".data ++ ('"' :: ':' :: ' ' :: '"' ::
      (escapeList v.data ++ '"' :: '\n' :: '\x7d' :: '\n' :: []))) =
      some ("kiro_server_url".data, ':' :: ' ' :: '"' ::
        (escapeList v.data ++ '"' :: '\n' :: '\x7d' :: '\n' :: [])) := by
    have h := unescapeBody_escapeList "kiro_server_url".data (':' :: ' ' :: '"' ::
      (escapeList v.data ++ '"' :: '\n' :: '\x7d' :: '\n' :: []))
    rwa [show escapeList "kiro_server_url".data = "kiro_server_url".data from by decide]
      at h
  have hval := unescapeBody_escapeList v.data ('\n' :: '\x7d' :: '\n' :: [])
  simp only [parse_single_field_object, h0]
  rw [dropWhile_cons_neg _ _ _ (by decide)]
  simp only [parseJsonStringLit]
  rw [dropWhile_cons_pos _ _ _ (by decide), dropWhile_cons_pos _ _ _ (by decide),
    dropWhile_cons_pos _ _ _ (by decide), dropWhile_cons_neg _ _ _ (by decide)]
  simp only [hkey]
  rw [dropWhile_cons_neg _ _ _ (by decide)]
  simp only []
  rw [dropWhile_cons_pos _ _ _ (by decide), dropWhile_cons_neg _ _ _ (by decide)]
  simp only [hval]
  rw [dropWhile_cons_pos _ _ _ (by decide), dropWhile_cons_neg _ _ _ (by decide)]
  simp only []
  rw [dropWhile_cons_pos _ _ _ (by decide)]
  rfl

theorem from_slice_pretty_config (v : String) :
    from_slice_config (to_string_pretty_config v ++ "\n") = some v := by
  simp [from_slice_config, parse_pretty_config]

/-! ### Helper lemmas: the probe loop -/

theorem health_loop_one (env : ProbeEnv) (u : String) (last : Option HealthCheckResult) :
    health_loop env [u] last =
      (if (probe_result env u).ok then (.early (probe_result env u), [u])
       else (.exhausted (some (probe_result env u)), [u])) := by
  rw [health_loop.eq_def]
  simp [probe_result]

theorem health_loop_two (env : ProbeEnv) (u1 u2 : String) :
    health_loop env [u1, u2] none =
      (if (probe_result env u1).ok then (.early (probe_result env u1), [u1])
       else if ((probe_result env u1).status_code == some 404 ||
                (probe_result env u1).status_code == none) then
         (if (probe_result env u2).ok then (.early (probe_result env u2), [u1, u2])
          else (.exhausted (some (probe_result env u2)), [u1, u2]))
       else (.exhausted (some (probe_result env u1)), [u1])) := by
  rw [health_loop.eq_def]
  simp only [List.isEmpty_cons, Bool.not_false, Bool.true_and, probe_result]
  by_cases h1 : (fetch_health env.jsonParse u1 (env.outcome u1)).ok
  · simp [h1]
  · by_cases hc : ((fetch_health env.jsonParse u1 (env.outcome u1)).status_code ==
        some 404 ||
        (fetch_health env.jsonParse u1 (env.outcome u1)).status_code == none) = true
    · by_cases h2 : (fetch_health env.jsonParse u2 (env.outcome u2)).ok
      · simp [h1, hc, health_loop_one, probe_result, h2]
      · simp [h1, hc, health_loop_one, probe_result, h2]
    · simp [h1, hc]

/-! ### Helper lemmas: `normalize_base_url` case analysis -/

theorem normalize_error_invalid_url (raw : String) (e : ConfigError)
    (h : normalize_base_url raw = .error e) : ∃ m, e = .InvalidUrl m := by
  simp only [normalize_base_url] at h
  split at h
  · exact ⟨"empty url", by injection h with h2; exact h2.symm⟩
  · split at h
    · exact ⟨"url parse error", by injection h with h2; exact h2.symm⟩
    · split at h
      · split at h
        · cases h
        · exact ⟨"missing host", by injection h with h2; exact h2.symm⟩
      · exact ⟨_, by injection h with h2; exact h2.symm⟩

theorem normalize_ok_eq_trimmed (raw s : String)
    (h : normalize_base_url raw = .ok s) : s = trimEndSlashes (rustTrim raw) := by
  simp only [normalize_base_url] at h
  split at h
  · cases h
  · split at h
    · cases h
    · split at h
      · split at h
        · injection h with h2; exact h2.symm
        · cases h
      · cases h

/-! ### Claim theorems -/

/-- C4 counterexample: `normalize` is not idempotent.  On
`"http://a.com/x /"` the first normalization strips the trailing slash and
exposes a trailing space (the WHATWG URL parser itself ignores trailing
spaces, so parsing still succeeds and the trimmed-but-space-suffixed string
is returned); normalizing that output trims the space, giving a different
string. -/
theorem normalize_idempotence_cex :
    normalize_base_url "http://a.com/x /" = .ok "http://a.com/x " ∧
    normalize_base_url "http://a.com/x " = .ok "http://a.com/x" ∧
    ("http://a.com/x " : String) ≠ "http://a.com/x" :=
  ⟨by decide, by decide, by decide⟩

/-- C4 (amended): `normalize` is idempotent on every input whose normalized
output is whitespace-trimmed, i.e. whenever `normalize x = ok y` and
`rustTrim y = y` (no whitespace was exposed by trailing-slash stripping),
`normalize y = ok y`. -/
theorem normalize_idempotent_of_trimmed (x y : String)
    (h : normalize_base_url x = .ok y) (hy : rustTrim y = y) :
    normalize_base_url y = .ok y := by
  simp only [normalize_base_url] at h
  by_cases hemp : trimEndSlashes (rustTrim x) = ""
  · rw [if_pos hemp] at h; cases h
  · rw [if_neg hemp] at h
    cases hp : url_parse (trimEndSlashes (rustTrim x)) with
    | none => rw [hp] at h; cases h
    | some parsed =>
      simp only [hp] at h
      by_cases hs : parsed.scheme = "http" ∨ parsed.scheme = "https"
      · rw [if_pos hs] at h
        by_cases hh : parsed.host.isSome
        · rw [if_pos hh] at h
          injection h with h2
          have hyne : y ≠ "" := h2 ▸ hemp
          have hy2 : trimEndSlashes (rustTrim y) = y := by
            rw [hy, ← h2, trimEndSlashes_idem]
          simp only [normalize_base_url]
          rw [hy2, if_neg hyne, ← h2]
          simp only [hp]
          rw [if_pos hs, if_pos hh]
        · rw [if_neg hh] at h; cases h
      · rw [if_neg hs] at h; cases h

/-- C4 witness: the amended idempotence instantiated at
`normalize "http://a.com/" = ok "http://a.com"`. -/
theorem normalize_idempotent_of_trimmed_witness :
    normalize_base_url "http://a.com" = .ok "http://a.com" :=
  normalize_idempotent_of_trimmed "http://a.com/" "http://a.com" (by decide) (by decide)

/-- C6: `normalize_base_url` fails with `InvalidUrl` on inputs that are empty
after whitespace-trimming and trailing-slash stripping (this covers
whitespace-only and slash-only inputs alike), on inputs that do not parse as
URLs, on parsed schemes other than `http`/`https`, and on URLs without a
host; on success it returns exactly the trimmed, trailing-slash-stripped
original string, which has no trailing slash. -/
theorem normalize_validation (raw : String) :
    (trimEndSlashes (rustTrim raw) = "" →
      normalize_base_url raw = .error (.InvalidUrl "empty url")) ∧
    (trimEndSlashes (rustTrim raw) ≠ "" →
      url_parse (trimEndSlashes (rustTrim raw)) = none →
      normalize_base_url raw = .error (.InvalidUrl "url parse error")) ∧
    (∀ p, url_parse (trimEndSlashes (rustTrim raw)) = some p →
      (¬(p.scheme = "http" ∨ p.scheme = "https") →
        normalize_base_url raw =
          .error (.InvalidUrl ("unsupported scheme: " ++ p.scheme))) ∧
      (p.host = none → ∃ m, normalize_base_url raw = .error (.InvalidUrl m))) ∧
    (∀ s, normalize_base_url raw = .ok s →
      s = trimEndSlashes (rustTrim raw) ∧
      ∀ c, s.data.getLast? = some c → c ≠ '/') := by
  refine ⟨?_, ?_, ?_, ?_⟩
  · intro h
    simp [normalize_base_url, h]
  · intro hne hp
    simp [normalize_base_url, hp, hne]
  · intro p hp
    have hne : trimEndSlashes (rustTrim raw) ≠ "" := by
      intro h0
      rw [h0, (by decide : url_parse "" = (none : Option ParsedUrl))] at hp
      cases hp
    constructor
    · intro hs
      simp [normalize_base_url, hne, hp, hs]
    · intro hh
      by_cases hs : p.scheme = "http" ∨ p.scheme = "https"
      · exact ⟨"missing host", by simp [normalize_base_url, hne, hp, hs, hh]⟩
      · exact ⟨"unsupported scheme: " ++ p.scheme,
          by simp [normalize_base_url, hne, hp, hs]⟩
  · intro s hs
    have hst := normalize_ok_eq_trimmed raw s hs
    refine ⟨hst, ?_⟩
    intro c hc
    have hdata : s.data = dropWhileEnd (fun c => c == '/') (rustTrim raw).data := by
      rw [hst]; rfl
    rw [hdata] at hc
    have hfalse := getLast?_dropWhileEnd_not (fun c => c == '/') (rustTrim raw).data c hc
    simpa using hfalse

/-- C6 witness: the validation theorem instantiated at concrete inputs for
each failure class — including a whitespace-only and a slash-only input,
both empty only after the code's combined trimming — and for a successful
normalization. -/
theorem normalize_validation_witness :
    normalize_base_url "   " = .error (.InvalidUrl "empty url") ∧
    normalize_base_url "///" = .error (.InvalidUrl "empty url") ∧
    normalize_base_url "%%%" = .error (.InvalidUrl "url parse error") ∧
    normalize_base_url "ftp://a.com" =
      .error (.InvalidUrl "unsupported scheme: ftp") ∧
    (∃ m, normalize_base_url "mailto:x@y" = .error (.InvalidUrl m)) ∧
    ("https://a.com/x" : String) = trimEndSlashes (rustTrim "  https://a.com/x// ") ∧
    (∀ c, ("https://a.com/x" : String).data.getLast? = some c → c ≠ '/') := by
  refine ⟨(normalize_validation "   ").1 (by decide),
    (normalize_validation "///").1 (by decide),
    (normalize_validation "%%%").2.1 (by decide) (by decide),
    ?_, ?_, ?_, ?_⟩
  · exact ((normalize_validation "ftp://a.com").2.2.1 ⟨"ftp", some "a.com"⟩
      (by decide)).1 (by decide)
  · exact ((normalize_validation "mailto:x@y").2.2.1 ⟨"mailto", none⟩
      (by decide)).2 (by decide)
  · exact ((normalize_validation "  https://a.com/x// ").2.2.2 "https://a.com/x"
      (by decide)).1
  · exact ((normalize_validation "  https://a.com/x// ").2.2.2 "https://a.com/x"
      (by decide)).2

/-- C8: when normalization of the raw URL fails, `save_config` returns that
error — always an `InvalidUrl` — and returns the filesystem unchanged: no
file or directory is created or modified, because validation precedes every
filesystem effect in the function body. -/
theorem save_config_invalid_url_no_write (home : Option FsPath) (fs : FS)
    (raw : String) (e : ConfigError) (h : normalize_base_url raw = .error e) :
    save_config home fs raw = (fs, .error e.toMessage) ∧ ∃ m, e = .InvalidUrl m :=
  ⟨by simp [save_config, h], normalize_error_invalid_url raw e h⟩

/-- C8 witness: saving the invalid URL `"notaurl"` errors and leaves the
empty filesystem untouched. -/
theorem save_config_invalid_url_no_write_witness :
    save_config (some []) ⟨[], []⟩ "notaurl" =
      (⟨[], []⟩, .error (ConfigError.InvalidUrl "url parse error").toMessage) ∧
    ∃ m, ConfigError.InvalidUrl "url parse error" = ConfigError.InvalidUrl m :=
  save_config_invalid_url_no_write (some []) ⟨[], []⟩ "notaurl"
    (ConfigError.InvalidUrl "url parse error") (by decide)

/-- C1 counterexample: the persisted file's single recognized field is named
`kiro_server_url`, not `server_url` as the claim states: after a successful
save of `"http://a.com"`, the file at the config path parses to the member
`("kiro_server_url", "http://a.com")`. -/
theorem save_config_field_name_cex :
    (save_config (some []) ⟨[], []⟩ "http://a.com").1.getFile
        [".config", "antihook", "config.json"] =
      some "\x7b\n  \"kiro_server_url\": \"http://a.com\"\n\x7d\n" ∧
    parse_single_field_object "\x7b\n  \"kiro_server_url\": \"http://a.com\"\n\x7d\n" =
      some ("kiro_server_url", "http://a.com") ∧
    ("kiro_server_url" : String) ≠ "server_url" :=
  ⟨by decide, by decide, by decide⟩

theorem getLast?_append_newline (s : String) :
    (s ++ "\n").data.getLast? = some '\n' := by
  rw [String.data_append, show ("\n" : String).data = ['\n'] from rfl]
  exact List.getLast?_concat _

/-- C1 (amended): every successful `save_config` writes at the config path
the pretty-printed JSON object with a trailing newline whose single
recognized field is named `kiro_server_url` and holds the normalized form of
the raw input. -/
theorem save_config_writes_config_json (home : FsPath) (fs fs2 : FS) (raw n : String)
    (h : save_config (some home) fs raw = (fs2, .ok n)) :
    normalize_base_url raw = .ok n ∧
    fs2.getFile (home ++ [".config", "antihook", "config.json"]) =
      some (to_string_pretty_config n ++ "\n") ∧
    parse_single_field_object (to_string_pretty_config n ++ "\n") =
      some ("kiro_server_url", n) ∧
    (to_string_pretty_config n ++ "\n").data.getLast? = some '\n' := by
  cases hn : normalize_base_url raw with
  | error e =>
    simp only [save_config, hn] at h
    injection h with h1 h2
    cases h2
  | ok normalized =>
    simp only [save_config, hn, config_file_path, config_dir, List.append_assoc,
      List.cons_append, List.nil_append] at h
    injection h with h1 h2
    injection h2 with h2
    subst h2
    refine ⟨rfl, ?_, parse_pretty_config _, getLast?_append_newline _⟩
    rw [← h1]
    exact atomic_write_getFile_target _ _ _ (tmp_path_config_ne home)

/-- C1 witness: the amended statement instantiated at a concrete successful
save of `"http://a.com"` over the empty filesystem. -/
theorem save_config_writes_config_json_witness :
    normalize_base_url "http://a.com" = .ok "http://a.com" ∧
    (save_config (some []) ⟨[], []⟩ "http://a.com").1.getFile
        ([] ++ [".config", "antihook", "config.json"]) =
      some (to_string_pretty_config "http://a.com" ++ "\n") ∧
    parse_single_field_object (to_string_pretty_config "http://a.com" ++ "\n") =
      some ("kiro_server_url", "http://a.com") ∧
    (to_string_pretty_config "http://a.com" ++ "\n").data.getLast? = some '\n' :=
  save_config_writes_config_json [] ⟨[], []⟩
    (save_config (some []) ⟨[], []⟩ "http://a.com").1 "http://a.com" "http://a.com"
    (by decide)

/-- C5: after every successful `save_config`, `load_config` on the resulting
filesystem returns a present configuration whose `kiro_server_url` field
equals the normalized form of the saved input (round-trip law). -/
theorem save_then_load_roundtrip (home : FsPath) (fs fs2 : FS) (raw n : String)
    (h : save_config (some home) fs raw = (fs2, .ok n)) :
    normalize_base_url raw = .ok n ∧
    load_config (some home) fs2 = .ok (some ⟨n⟩) := by
  cases hn : normalize_base_url raw with
  | error e =>
    simp only [save_config, hn] at h
    injection h with h1 h2
    cases h2
  | ok normalized =>
    simp only [save_config, hn, config_file_path, config_dir, List.append_assoc,
      List.cons_append, List.nil_append] at h
    injection h with h1 h2
    injection h2 with h2
    subst h2
    refine ⟨rfl, ?_⟩
    simp only [load_config, config_file_path, config_dir, List.append_assoc,
      List.cons_append, List.nil_append]
    rw [← h1]
    simp only [atomic_write_getFile_target _ _ _ (tmp_path_config_ne home),
      from_slice_pretty_config]

/-- C5 witness: the round-trip law at a concrete save of `"http://a.com/"`
over the empty filesystem. -/
theorem save_then_load_roundtrip_witness :
    normalize_base_url "http://a.com/" = .ok "http://a.com" ∧
    load_config (some []) (save_config (some []) ⟨[], []⟩ "http://a.com/").1 =
      .ok (some ⟨"http://a.com"⟩) :=
  save_then_load_roundtrip [] ⟨[], []⟩
    (save_config (some []) ⟨[], []⟩ "http://a.com/").1 "http://a.com/" "http://a.com"
    (by decide)

/-- C2 counterexample: interrupting `atomic_write` after its remove-target
step but before the rename (running only the first three steps) deletes the
previously persisted file — the prior content `"OLD"` is no longer present,
so "interrupting at any point before the rename leaves the previously
persisted file unchanged" is false. -/
theorem atomic_write_interrupt_cex :
    FS.getFile ⟨[([".config", "antihook", "config.json"], "OLD")], []⟩
        [".config", "antihook", "config.json"] = some "OLD" ∧
    (atomic_write_upto [".config", "antihook", "config.json"] "NEW"
        ⟨[([".config", "antihook", "config.json"], "OLD")], []⟩ 3).getFile
        [".config", "antihook", "config.json"] = none :=
  ⟨by decide, by decide⟩

/-- C2 (amended): `atomic_write` on the config path uses the sibling
temporary file `config.json.tmp` in the same directory, writes the data
there, and only the final rename publishes it; interrupting before the
remove-target step leaves the target unchanged, interrupting between remove
and rename leaves the target absent, and at every interruption point the
target holds either the old content, nothing, or the complete new content —
never a partial write; the completed call leaves the new content at the
target. -/
theorem atomic_write_protocol (home p : FsPath) (fs : FS) (data : String)
    (hp : p = home ++ [".config", "antihook", "config.json"]) :
    tmp_path p = home ++ [".config", "antihook", "config.json.tmp"] ∧
    (tmp_path p).dropLast = p.dropLast ∧
    (atomic_write_upto p data fs 2).getFile (tmp_path p) = some data ∧
    (∀ k, k ≤ 2 → (atomic_write_upto p data fs k).getFile p = fs.getFile p) ∧
    (atomic_write_upto p data fs 3).getFile p = none ∧
    (∀ k, (atomic_write_upto p data fs k).getFile p = fs.getFile p ∨
      (atomic_write_upto p data fs k).getFile p = none ∨
      (atomic_write_upto p data fs k).getFile p = some data) ∧
    (atomic_write p data fs).getFile p = some data := by
  subst hp
  have htmp := tmp_path_config_ne home
  refine ⟨?_, ?_, atomic_write_upto_two_getFile_tmp _ _ _, ?_,
    atomic_write_upto_three_getFile _ _ _, ?_,
    atomic_write_getFile_target _ _ _ htmp⟩
  · rw [tmp_path_config]
    simp
  · rw [tmp_path_config, config_path_snoc, dropLast_snoc, dropLast_snoc]
  · intro k hk
    interval_cases k
    · rfl
    · exact atomic_write_upto_one_getFile _ _ _ _
    · exact atomic_write_upto_two_getFile _ _ _ htmp
  · intro k
    match k with
    | 0 => exact Or.inl rfl
    | 1 => exact Or.inl (atomic_write_upto_one_getFile _ _ _ _)
    | 2 => exact Or.inl (atomic_write_upto_two_getFile _ _ _ htmp)
    | 3 => exact Or.inr (Or.inl (atomic_write_upto_three_getFile _ _ _))
    | (n + 4) =>
      refine Or.inr (Or.inr ?_)
      have hsteps : atomic_write_upto (home ++ [".config", "antihook", "config.json"])
          data fs (n + 4) =
          atomic_write (home ++ [".config", "antihook", "config.json"]) data fs := by
        rw [atomic_write, atomic_write_upto, atomic_write_upto,
          List.take_of_length_le (by simp [atomic_write_steps]),
          List.take_of_length_le (by simp [atomic_write_steps])]
      rw [hsteps]
      exact atomic_write_getFile_target _ _ _ htmp

/-- C2 witness: the completed protocol at a concrete path and empty
filesystem leaves the written data at the target. -/
theorem atomic_write_protocol_witness :
    (atomic_write ([] ++ [".config", "antihook", "config.json"]) "DATA"
        ⟨[], []⟩).getFile ([] ++ [".config", "antihook", "config.json"]) =
      some "DATA" :=
  (atomic_write_protocol [] ([] ++ [".config", "antihook", "config.json"]) ⟨[], []⟩
      "DATA" rfl).2.2.2.2.2.2

/-- C3: under a successful normalization and client construction, the probe
policy is: the first candidate `{base}/api/health` is probed first; a
successful first probe is returned immediately and the second candidate
`{base}/backend/api/health` is never requested; a first failure whose status
is neither 404 nor absent is returned immediately; and a first failure with
status exactly 404 or absent advances to the second (and last) candidate,
whose result — a success or the last recorded failure — is returned. -/
theorem check_health_policy (env : ProbeEnv) (base_url base : String)
    (hn : normalize_base_url base_url = .ok base)
    (hb : env.clientBuildError = none) :
    ((probe_result env (candidate1 base)).ok = true →
      check_health env base_url =
        .ok (probe_result env (candidate1 base), [candidate1 base], false)) ∧
    ((probe_result env (candidate1 base)).ok = false →
      (probe_result env (candidate1 base)).status_code ≠ some 404 →
      (probe_result env (candidate1 base)).status_code ≠ none →
      check_health env base_url =
        .ok (probe_result env (candidate1 base), [candidate1 base], false)) ∧
    ((probe_result env (candidate1 base)).ok = false →
      ((probe_result env (candidate1 base)).status_code = some 404 ∨
        (probe_result env (candidate1 base)).status_code = none) →
      check_health env base_url =
        .ok (probe_result env (candidate2 base),
          [candidate1 base, candidate2 base], false)) := by
  have hck : check_health env base_url =
      (match health_loop env [candidate1 base, candidate2 base] none with
       | (.early r, t) => .ok (r, t, false)
       | (.exhausted (some r), t) => .ok (r, t, false)
       | (.exhausted none, t) => .ok (fallback_result base, t, true)) := by
    simp only [check_health, hn, hb, candidates]
  refine ⟨?_, ?_, ?_⟩
  · intro h1
    rw [hck, health_loop_two, if_pos h1]
  · intro h1 h404 hnone
    have hc : ((probe_result env (candidate1 base)).status_code == some 404 ||
        (probe_result env (candidate1 base)).status_code == none) = false := by
      simp [h404, hnone]
    rw [hck, health_loop_two, if_neg (by simp [h1]), if_neg (by simp [hc])]
  · intro h1 hor
    have hc : ((probe_result env (candidate1 base)).status_code == some 404 ||
        (probe_result env (candidate1 base)).status_code == none) = true := by
      cases hor with
      | inl h => simp [h]
      | inr h => simp [h]
    rw [hck, health_loop_two, if_neg (by simp [h1]), if_pos hc]
    by_cases h2 : (probe_result env (candidate2 base)).ok
    · rw [if_pos h2]
    · rw [if_neg h2]

/-- C3 witness: a 200 response on the first candidate is returned with only
that candidate probed. -/
theorem check_health_policy_witness :
    check_health (tableEnv [("http://h/api/health", .response 200 "b" 5)]) "http://h" =
      .ok (probe_result (tableEnv [("http://h/api/health", .response 200 "b" 5)])
          (candidate1 "http://h"), [candidate1 "http://h"], false) :=
  (check_health_policy (tableEnv [("http://h/api/health", .response 200 "b" 5)])
      "http://h" "http://h" (by decide) rfl).1 (by decide)

/-- C7: every `fetch_health` result satisfies the record invariants: the
status code is absent exactly on transport failures, in which case `ok` is
false, `error` carries the transport message and `payload` is absent; on a
received response the status code is the actual code, `ok` holds iff the
status is in 200–299, `error` is absent and `payload` is whatever the JSON
parse of the body yields (absent bodies are not errors); the probed URL is
recorded; and `payload` and `error` are never both present. -/
theorem fetch_health_contract (jsonParse : String → Option String) (url : String)
    (outcome : FetchOutcome) :
    ((fetch_health jsonParse url outcome).status_code = none ↔
      ∃ m e, outcome = .transportError m e) ∧
    (∀ m e, outcome = .transportError m e →
      (fetch_health jsonParse url outcome).ok = false ∧
      (fetch_health jsonParse url outcome).error = some m ∧
      (fetch_health jsonParse url outcome).payload = none) ∧
    (∀ s b e, outcome = .response s b e →
      (fetch_health jsonParse url outcome).status_code = some s ∧
      ((fetch_health jsonParse url outcome).ok = true ↔ 200 ≤ s ∧ s ≤ 299) ∧
      (fetch_health jsonParse url outcome).error = none ∧
      (fetch_health jsonParse url outcome).payload = jsonParse b) ∧
    (fetch_health jsonParse url outcome).request_url = url ∧
    ¬((fetch_health jsonParse url outcome).payload.isSome ∧
      (fetch_health jsonParse url outcome).error.isSome) := by
  cases outcome with
  | transportError m e =>
    refine ⟨⟨fun _ => ⟨m, e, rfl⟩, fun _ => rfl⟩, ?_, ?_, rfl, ?_⟩
    · intro m2 e2 h
      injection h with hm he
      subst hm
      exact ⟨rfl, rfl, rfl⟩
    · intro s b e2 h
      cases h
    · intro ⟨hp, he⟩
      simp [fetch_health] at hp
  | response s b e =>
    refine ⟨?_, ?_, ?_, rfl, ?_⟩
    · constructor
      · intro h
        cases h
      · rintro ⟨m2, e2, h⟩
        cases h
    · intro m2 e2 h
      cases h
    · intro s2 b2 e2 h
      injection h with hs hb2 he
      subst hs
      subst hb2
      refine ⟨rfl, ?_, rfl, rfl⟩
      simp [fetch_health]
    · intro ⟨hp, he⟩
      simp [fetch_health] at he

/-- C7 witness: the contract instantiated at a transport failure and at a
503 response whose body parses. -/
theorem fetch_health_contract_witness :
    ((fetch_health (fun _ => none) "u" (.transportError "boom" 3)).ok = false ∧
      (fetch_health (fun _ => none) "u" (.transportError "boom" 3)).error =
        some "boom" ∧
      (fetch_health (fun _ => none) "u" (.transportError "boom" 3)).payload = none) ∧
    ((fetch_health some "u" (.response 503 "b" 4)).status_code = some 503 ∧
      ((fetch_health some "u" (.response 503 "b" 4)).ok = true ↔
        200 ≤ 503 ∧ 503 ≤ 299) ∧
      (fetch_health some "u" (.response 503 "b" 4)).error = none ∧
      (fetch_health some "u" (.response 503 "b" 4)).payload = some "b") :=
  ⟨(fetch_health_contract (fun _ => none) "u" (.transportError "boom" 3)).2.1
      "boom" 3 rfl,
   (fetch_health_contract some "u" (.response 503 "b" 4)).2.2.1 503 "b" 4 rfl⟩

/-- C9 counterexample: `check_health` has a second error source besides input
validation — the HTTP client construction.  With a valid base URL but a
failing client build, the function returns an error. -/
theorem check_health_client_build_cex :
    normalize_base_url "http://a.com" = .ok "http://a.com" ∧
    check_health ⟨some "error building client", fun _ => .transportError "x" 0,
        fun _ => none⟩ "http://a.com" = .error "error building client" :=
  ⟨by decide, by decide⟩

/-- C9 (amended): `check_health` returns an error only when input validation
fails or the HTTP client cannot be constructed; whenever validation and
client construction succeed it returns a structured result for every
transport oracle — network failures are captured as data, never raised. -/
theorem check_health_errors_characterized (env : ProbeEnv) (base_url : String) :
    (∀ msg, check_health env base_url = .error msg →
      (∃ e, normalize_base_url base_url = .error e ∧ msg = e.toMessage) ∨
      env.clientBuildError = some msg) ∧
    (∀ base, normalize_base_url base_url = .ok base → env.clientBuildError = none →
      ∃ r t, check_health env base_url = .ok (r, t, false)) := by
  constructor
  · intro msg h
    cases hn : normalize_base_url base_url with
    | error e =>
      left
      refine ⟨e, rfl, ?_⟩
      simp only [check_health, hn] at h
      injection h with h2
      exact h2.symm
    | ok base =>
      cases hb : env.clientBuildError with
      | some c =>
        right
        simp only [check_health, hn, hb] at h
        injection h with h2
        rw [h2]
      | none =>
        exfalso
        simp only [check_health, hn, hb, candidates] at h
        rw [health_loop_two] at h
        split_ifs at h
  · intro base hn hb
    simp only [check_health, hn, hb, candidates]
    rw [health_loop_two]
    by_cases h1 : (probe_result env (candidate1 base)).ok
    · rw [if_pos h1]
      exact ⟨_, _, rfl⟩
    · by_cases hc : ((probe_result env (candidate1 base)).status_code == some 404 ||
          (probe_result env (candidate1 base)).status_code == none) = true
      · rw [if_neg h1, if_pos hc]
        by_cases h2 : (probe_result env (candidate2 base)).ok
        · rw [if_pos h2]
          exact ⟨_, _, rfl⟩
        · rw [if_neg h2]
          exact ⟨_, _, rfl⟩
      · rw [if_neg h1, if_neg hc]
        exact ⟨_, _, rfl⟩

/-- C9 witness: with every transport probe failing, `check_health` still
returns a structured result rather than an error. -/
theorem check_health_errors_characterized_witness :
    ∃ r t, check_health (tableEnv []) "http://h" = .ok (r, t, false) :=
  (check_health_errors_characterized (tableEnv []) "http://h").2 "http://h"
    (by decide) rfl

/-- C10: the synthetic "unknown error" fallback of `check_health` is
unreachable: every successful return carries `usedFallback = false`, at
least one candidate was probed, every probed URL is one of the two
candidates, and the returned value is the actual probe result of one of the
probed candidates. -/
theorem check_health_result_from_probe (env : ProbeEnv) (base_url : String)
    (r : HealthCheckResult) (t : List String) (b : Bool)
    (h : check_health env base_url = .ok (r, t, b)) :
    b = false ∧ ∃ base, normalize_base_url base_url = .ok base ∧ t ≠ [] ∧
      (∀ u ∈ t, u ∈ candidates base) ∧ ∃ u ∈ t, r = probe_result env u := by
  cases hn : normalize_base_url base_url with
  | error e =>
    simp only [check_health, hn] at h
    cases h
  | ok base =>
    cases hb : env.clientBuildError with
    | some c =>
      simp only [check_health, hn, hb] at h
      cases h
    | none =>
      simp only [check_health, hn, hb, candidates] at h
      rw [health_loop_two] at h
      by_cases h1 : (probe_result env (candidate1 base)).ok
      · rw [if_pos h1] at h
        have h2 : (Except.ok (probe_result env (candidate1 base),
            [candidate1 base], false) : Except String _) = .ok (r, t, b) := h
        injection h2 with h3
        injection h3 with hr h4
        injection h4 with ht hb2
        subst hr
        subst ht
        subst hb2
        refine ⟨rfl, base, rfl, by simp, ?_, candidate1 base, by simp, rfl⟩
        intro u hu
        rw [List.mem_singleton] at hu
        subst hu
        simp [candidates]
      · by_cases hc : ((probe_result env (candidate1 base)).status_code == some 404 ||
            (probe_result env (candidate1 base)).status_code == none) = true
        · rw [if_neg h1, if_pos hc] at h
          by_cases hok2 : (probe_result env (candidate2 base)).ok
          · rw [if_pos hok2] at h
            have h2 : (Except.ok (probe_result env (candidate2 base),
                [candidate1 base, candidate2 base], false) :
                Except String _) = .ok (r, t, b) := h
            injection h2 with h3
            injection h3 with hr h4
            injection h4 with ht hb2
            subst hr
            subst ht
            subst hb2
            refine ⟨rfl, base, rfl, by simp, ?_, candidate2 base, by simp, rfl⟩
            intro u hu
            simp only [List.mem_cons, List.mem_singleton] at hu
            rcases hu with hu | hu | hu
            · subst hu; simp [candidates]
            · subst hu; simp [candidates]
            · cases hu
          · rw [if_neg hok2] at h
            have h2 : (Except.ok (probe_result env (candidate2 base),
                [candidate1 base, candidate2 base], false) :
                Except String _) = .ok (r, t, b) := h
            injection h2 with h3
            injection h3 with hr h4
            injection h4 with ht hb2
            subst hr
            subst ht
            subst hb2
            refine ⟨rfl, base, rfl, by simp, ?_, candidate2 base, by simp, rfl⟩
            intro u hu
            simp only [List.mem_cons, List.mem_singleton] at hu
            rcases hu with hu | hu | hu
            · subst hu; simp [candidates]
            · subst hu; simp [candidates]
            · cases hu
        · rw [if_neg h1, if_neg hc] at h
          have h2 : (Except.ok (probe_result env (candidate1 base),
              [candidate1 base], false) : Except String _) = .ok (r, t, b) := h
          injection h2 with h3
          injection h3 with hr h4
          injection h4 with ht hb2
          subst hr
          subst ht
          subst hb2
          refine ⟨rfl, base, rfl, by simp, ?_, candidate1 base, by simp, rfl⟩
          intro u hu
          rw [List.mem_singleton] at hu
          subst hu
          simp [candidates]

/-- C10 witness: with both candidates failing at the transport level, the
returned result is the actual probe of the second candidate and the fallback
is unused. -/
theorem check_health_result_from_probe_witness :
    false = false ∧ ∃ base, normalize_base_url "http://h" = .ok base ∧
      (["http://h/api/health", "http://h/backend/api/health"] : List String) ≠ [] ∧
      (∀ u ∈ (["http://h/api/health", "http://h/backend/api/health"] : List String),
        u ∈ candidates base) ∧
      ∃ u ∈ (["http://h/api/health", "http://h/backend/api/health"] : List String),
        ({ request_url := "http://h/backend/api/health", ok := false,
           status_code := none, elapsed_ms := 1, payload := none,
           error := some "connection refused" } : HealthCheckResult) =
          probe_result (tableEnv []) u :=
  check_health_result_from_probe (tableEnv []) "http://h" _ _ false (by decide)

end AntiHook
